import Mathlib

/-!
Verification of the elastic-search product-catalog service.

This file contains a shallow embedding, in Lean 4, of the Go code of the
repository: the product data model, the service-layer pagination arithmetic
(`internal/services/product.go`), the Elasticsearch query builder and result
normalization (`internal/app/application.go`, repository part), the HTTP
product handler, and the CSV import pipeline
(`internal/storage/elasticsearch/importer.go`).

Modelling conventions:
- Go machine integers are modelled as `Int`/`Nat` with explicit wrap
  (`goUInt64`) where a conversion can overflow; Go integer division
  (truncation toward zero) is `goIntDiv`.
- `float64` relevance scores and JSON numbers are modelled as `Int`
  (all properties under verification are independent of fractional values;
  `int(math.Ceil(float64 a / float64 b))` for positive operands is modelled
  by the exact integer ceiling, which agrees with the float computation for
  all magnitudes below 2^53).
- `time.Time` values are modelled as opaque `String` tokens (no claim
  depends on the internal structure of a timestamp).
- Fallible Go code returns `Except`/`GoResult`; a Go runtime panic (failed
  type assertion, slice index out of range) is the `GoResult.panicked`
  constructor.
- Network calls (spreadsheet download, index creation, bulk writes, the
  search round trip) are modelled by explicit oracle parameters giving each
  call's outcome, and the calls a run performs are recorded in an explicit
  effect trace.
- JSON documents are modelled by the ordered-field tree `JVal`; Go
  `map[string]interface{}` values decoded from JSON are association lists
  with `List.lookup`.
-/

namespace ESpec

/-- The double-quote character (written via its code point to keep the
source free of quote-escaping noise). -/
def quoteChar : Char := Char.ofNat 34

/-- A single-quote as a one-character string, used in error messages. -/
def squote : String := String.mk [Char.ofNat 39]

/-- Outcome of running a piece of Go code: normal value, returned `error`,
or runtime panic. -/
inductive GoResult (A : Type) where
  | ok (a : A)
  | err (msg : String)
  | panicked (msg : String)
deriving DecidableEq, Repr

/-- `true` exactly on the `panicked` constructor. -/
def GoResult.isPanic {A : Type} : GoResult A → Bool
  | .panicked _ => true
  | _ => false

/-- JSON values (Go `interface{}` decoded from JSON). Numbers are modelled
as integers and objects as ordered association lists. -/
inductive JVal where
  | jnull
  | jbool (b : Bool)
  | jnum (n : Int)
  | jstr (s : String)
  | jarr (elems : List JVal)
  | jobj (fields : List (String × JVal))

/-- Go integer division: truncation toward zero (`a / b` on Go ints). -/
def goIntDiv (a b : Int) : Int :=
  let q : Int := Int.ofNat (a.natAbs / b.natAbs)
  if (decide (a < 0)) != (decide (b < 0)) then -q else q

/-- `int(math.Ceil(float64 a / float64 b))` for the positive operands on
which the Go code invokes it (exact for magnitudes below 2^53). -/
def ceilDiv (a b : Int) : Int := goIntDiv (a + b - 1) b

/-- Go `uint64(i)` conversion of a signed 64-bit value: reduction modulo
2^64 (two's complement). -/
def goUInt64 (i : Int) : Nat := (Int.emod i (2 ^ 64)).toNat

/-- Accumulate a decimal digit string; `none` on any non-digit. -/
def digitsAux : Nat → List Char → Option Nat
  | acc, [] => some acc
  | acc, c :: cs => if c.isDigit then digitsAux (acc * 10 + (c.toNat - 48)) cs else none

/-- Go `strconv.ParseUint(s, 10, 64)`: digits only (no sign), value must
fit in 64 bits; `none` models a returned error. -/
def parseGoUint64 (s : String) : Option Nat :=
  match s.data with
  | [] => none
  | cs =>
    match digitsAux 0 cs with
    | some v => if v < 2 ^ 64 then some v else none
    | none => none

/-- Go `strconv.Atoi` (= `ParseInt(s, 10, 0)` on a 64-bit platform):
optional single sign, then digits, value within `[-2^63, 2^63 - 1]`. -/
def parseGoInt (s : String) : Option Int :=
  match s.data with
  | [] => none
  | c :: cs =>
    if c = '-' then
      match cs with
      | [] => none
      | _ =>
        match digitsAux 0 cs with
        | some v => if v ≤ 2 ^ 63 then some (-(v : Int)) else none
        | none => none
    else if c = '+' then
      match cs with
      | [] => none
      | _ =>
        match digitsAux 0 cs with
        | some v => if v ≤ 2 ^ 63 - 1 then some (v : Int) else none
        | none => none
    else
      match digitsAux 0 (c :: cs) with
      | some v => if v ≤ 2 ^ 63 - 1 then some (v : Int) else none
      | none => none

/-- Go `strings.ToLower` (ASCII-relevant part; every string a claim touches
is ASCII). -/
def toLowerGo (s : String) : String := String.mk (s.data.map Char.toLower)

/-- Characters trimmed from both ends of a parsed CSV field
(`strings.Trim(field, quote-space-tab-cr-lf)` in `parseCSVLine`). -/
def trimChars : List Char := [quoteChar, ' ', '\t', '\r', '\n']

/-- Go `strings.Trim(s, cutset)` for the fixed CSV cutset. -/
def goTrim (s : String) : String :=
  String.mk (((s.data.dropWhile (fun c => trimChars.contains c)).reverse.dropWhile
    (fun c => trimChars.contains c)).reverse)

/-- Split a character list at newline characters (Go
`strings.Split(s, nl)`): always at least one piece, empty pieces kept. -/
def splitNl : List Char → List (List Char)
  | [] => [[]]
  | c :: cs =>
    if c = '\n' then [] :: splitNl cs
    else
      match splitNl cs with
      | [] => [[c]]
      | f :: r => (c :: f) :: r

/-- Go `strings.Split(s, newline)`. -/
def goSplitLines (s : String) : List String := (splitNl s.data).map String.mk

/-- Substring test on character lists (Go `strings.Contains`). -/
def listContainsSub : List Char → List Char → Bool
  | [], pat => pat.isEmpty
  | c :: t, pat => List.isPrefixOf pat (c :: t) || listContainsSub t pat

/-- Go `strings.Contains(s, sub)`. -/
def goContains (s sub : String) : Bool := listContainsSub s.data sub.data

/-- Go `min` helper defined at the bottom of `importer.go`. -/
def goMin (a b : Nat) : Nat := if a < b then a else b

end ESpec

namespace ESpec.Models

/-- `models.Product` (`internal/models/product.go`). `ID` is a `uint64`,
`Score` a `float64` (modelled as `Int`), the timestamps opaque tokens. -/
structure Product where
  ID : Nat
  ProductName : String
  DrugGeneric : String
  Company : String
  Score : Int
  CreatedAt : String
  UpdatedAt : String
deriving DecidableEq, Repr

/-- `models.ProductSearchParams`. -/
structure ProductSearchParams where
  Limit : Int
  Offset : Int
  Keyword : String
deriving DecidableEq, Repr

/-- `models.ProductSearchResult` (repository-level result). -/
structure ProductSearchResult where
  Products : List Product
  TotalCount : Int
  Limit : Int
  Offset : Int
deriving DecidableEq, Repr

/-- The zero value of `models.Product` (what `var product models.Product`
declares before unmarshalling). -/
def defaultProduct : Product :=
  { ID := 0, ProductName := "", DrugGeneric := "", Company := "", Score := 0,
    CreatedAt := "", UpdatedAt := "" }

end ESpec.Models

namespace ESpec.Services

/-- `services.ProductSearchResult` (service-level result with page info). -/
structure ProductSearchResult where
  Products : List ESpec.Models.Product
  TotalCount : Int
  Limit : Int
  Offset : Int
  CurrentPage : Int
  TotalPages : Int
deriving DecidableEq, Repr

/-- `(*ProductServiceImpl).GetProducts` (`internal/services/product.go`,
lines 34-61). The repository call `FindProducts` is modelled by its outcome
`repoResult`; the pagination arithmetic is translated verbatim:
`currentPage = offset/limit + 1` when `limit > 0` else `1`, and
`totalPages = ceil(totalCount/limit)` when `limit > 0 && totalCount > 0`
else `1`. -/
def GetProducts (repoResult : Except String ESpec.Models.ProductSearchResult)
    (params : ESpec.Models.ProductSearchParams) :
    Except String ProductSearchResult :=
  match repoResult with
  | .error e => .error e
  | .ok result =>
    let currentPage : Int :=
      if 0 < params.Limit then ESpec.goIntDiv params.Offset params.Limit + 1 else 1
    let totalPages : Int :=
      if 0 < params.Limit ∧ 0 < result.TotalCount then
        ESpec.ceilDiv result.TotalCount params.Limit
      else 1
    .ok { Products := result.Products, TotalCount := result.TotalCount,
          Limit := params.Limit, Offset := params.Offset,
          CurrentPage := currentPage, TotalPages := totalPages }

end ESpec.Services

namespace ESpec

/-- C1 (claim as stated is refuted here): with `limit = 5 > 0`,
`offset = 0 ≥ 0` and `total_count = 0`, the claim's formula
`total_pages = ceil(total_count/limit)` demands `0`, but `GetProducts`
computes `TotalPages = 1` (the code only applies the ceiling when
`totalCount > 0`). -/
theorem c1_totalpages_counterexample :
    Services.GetProducts
        (Except.ok { Products := [], TotalCount := 0, Limit := 5, Offset := 0 })
        { Limit := 5, Offset := 0, Keyword := "" }
      = Except.ok { Products := [], TotalCount := 0, Limit := 5, Offset := 0,
                    CurrentPage := 1, TotalPages := 1 }
    ∧ (1 : Int) ≠ ceilDiv 0 5 := by
  exact ⟨rfl, by decide⟩

/-- C1 (amended): whenever the repository call succeeds, `GetProducts`
sets `CurrentPage = offset/limit + 1` (integer division) for
`limit > 0`, `offset ≥ 0`; for `limit > 0` it sets
`TotalPages = ceil(total_count/limit)` when `total_count > 0` and
`TotalPages = 1` when `total_count ≤ 0`; both fields are `1` when
`limit = 0`. -/
theorem c1_pagination (repoRes : Models.ProductSearchResult)
    (params : Models.ProductSearchParams) (res : Services.ProductSearchResult)
    (h : Services.GetProducts (Except.ok repoRes) params = Except.ok res) :
    (0 < params.Limit → 0 ≤ params.Offset →
      res.CurrentPage = goIntDiv params.Offset params.Limit + 1
      ∧ (0 < repoRes.TotalCount →
          res.TotalPages = ceilDiv repoRes.TotalCount params.Limit)
      ∧ (repoRes.TotalCount ≤ 0 → res.TotalPages = 1))
    ∧ (params.Limit = 0 → res.CurrentPage = 1 ∧ res.TotalPages = 1) := by
  simp only [Services.GetProducts] at h
  injection h with h
  subst h
  refine ⟨fun hl _ho => ⟨?_, fun ht => ?_, fun ht => ?_⟩, fun hl => ⟨?_, ?_⟩⟩
  · simp [if_pos hl]
  · simp [if_pos (And.intro hl ht)]
  · have : ¬ (0 < params.Limit ∧ 0 < repoRes.TotalCount) := by
      intro hc; omega
    simp [if_neg this]
  · have : ¬ (0 < params.Limit) := by omega
    simp [if_neg this]
  · have : ¬ (0 < params.Limit ∧ 0 < repoRes.TotalCount) := by
      intro hc; omega
    simp [if_neg this]

/-- C1 witness: the amended theorem applied at `limit = 3`, `offset = 4`,
`total_count = 7`: `current_page = 4/3 + 1 = 2`, `total_pages = ceil(7/3) = 3`. -/
theorem c1_pagination_witness :
    (2 : Int) = goIntDiv 4 3 + 1 ∧ (3 : Int) = ceilDiv 7 3 := by
  have h := c1_pagination
    { Products := [], TotalCount := 7, Limit := 0, Offset := 0 }
    { Limit := 3, Offset := 4, Keyword := "" }
    { Products := [], TotalCount := 7, Limit := 3, Offset := 4,
      CurrentPage := 2, TotalPages := 3 } rfl
  exact ⟨(h.1 (by decide) (by decide)).1, (h.1 (by decide) (by decide)).2.1 (by decide)⟩

end ESpec

namespace ESpec.Repo

open ESpec

/-- `(*ElasticsearchProductRepository).buildProductQuery`
(`internal/app/application.go`, lines 276-361), translated field for field
in source order. The empty-keyword branch is the plain `{from, size}`
object; the non-empty branch is the boolean should-query with the fuzzy
match clauses, the wildcard clauses, and the two-key sort. -/
def buildProductQuery (params : Models.ProductSearchParams) : JVal :=
  if params.Keyword = "" then
    JVal.jobj [("from", JVal.jnum params.Offset), ("size", JVal.jnum params.Limit)]
  else
    JVal.jobj
      [("query", JVal.jobj
        [("bool", JVal.jobj
          [("should", JVal.jarr
            [JVal.jobj
              [("bool", JVal.jobj
                [("should", JVal.jarr
                  [JVal.jobj [("match", JVal.jobj
                    [("product_name", JVal.jobj
                      [("query", JVal.jstr params.Keyword),
                       ("operator", JVal.jstr "and"),
                       ("fuzziness", JVal.jstr "AUTO")])])],
                   JVal.jobj [("match", JVal.jobj
                    [("drug_generic", JVal.jobj
                      [("query", JVal.jstr params.Keyword),
                       ("operator", JVal.jstr "and"),
                       ("fuzziness", JVal.jstr "AUTO")])])],
                   JVal.jobj [("match", JVal.jobj
                    [("company", JVal.jobj
                      [("query", JVal.jstr params.Keyword),
                       ("operator", JVal.jstr "and"),
                       ("fuzziness", JVal.jstr "AUTO")])])]])])],
             JVal.jobj
              [("bool", JVal.jobj
                [("should", JVal.jarr
                  [JVal.jobj [("wildcard", JVal.jobj
                    [("product_name", JVal.jobj
                      [("value", JVal.jstr ("*" ++ params.Keyword ++ "*"))])])],
                   JVal.jobj [("wildcard", JVal.jobj
                    [("drug_generic", JVal.jobj
                      [("value", JVal.jstr ("*" ++ params.Keyword ++ "*"))])])],
                   JVal.jobj [("wildcard", JVal.jobj
                    [("company", JVal.jobj
                      [("value", JVal.jstr ("*" ++ params.Keyword ++ "*"))])])]])])]])])]),
       ("sort", JVal.jarr
         [JVal.jobj [("_score", JVal.jobj [("order", JVal.jstr "desc")])],
          JVal.jobj [("product_name.keyword", JVal.jobj [("order", JVal.jstr "asc")])]]),
       ("from", JVal.jnum params.Offset),
       ("size", JVal.jnum params.Limit)]

end ESpec.Repo

namespace ESpec

/-- The query the spec promises for an empty keyword: a plain paginated
listing, `from = offset` and `size = limit`, with no query clause and no
sort (written from the spec's words, for comparison with
`Repo.buildProductQuery`). -/
def specPlainQuery (params : Models.ProductSearchParams) : JVal :=
  JVal.jobj [("from", JVal.jnum params.Offset), ("size", JVal.jnum params.Limit)]

/-- One fuzzy-match clause of the spec's description: the keyword must
fuzzily match (AND-combined tokens, automatic fuzziness) the given field. -/
def specFuzzyClause (field keyword : String) : JVal :=
  JVal.jobj [("match", JVal.jobj
    [(field, JVal.jobj
      [("query", JVal.jstr keyword),
       ("operator", JVal.jstr "and"),
       ("fuzziness", JVal.jstr "AUTO")])])]

/-- One wildcard clause of the spec's description: the keyword matches
`*keyword*` as an unanchored wildcard against the given field. -/
def specWildcardClause (field keyword : String) : JVal :=
  JVal.jobj [("wildcard", JVal.jobj
    [(field, JVal.jobj [("value", JVal.jstr ("*" ++ keyword ++ "*"))])])]

/-- The query the spec promises for a non-empty keyword (written from the
spec's words): a boolean should-query whose first alternative is the inner
OR of the fuzzy-match clauses over `product_name`, `drug_generic`,
`company`, whose second alternative is the inner OR of the wildcard clauses
over the same three fields, sorted by descending `_score` then ascending
`product_name.keyword`, with the same `from`/`size` pagination. -/
def specKeywordQuery (params : Models.ProductSearchParams) : JVal :=
  JVal.jobj
    [("query", JVal.jobj
      [("bool", JVal.jobj
        [("should", JVal.jarr
          [JVal.jobj [("bool", JVal.jobj
            [("should", JVal.jarr
              [specFuzzyClause "product_name" params.Keyword,
               specFuzzyClause "drug_generic" params.Keyword,
               specFuzzyClause "company" params.Keyword])])],
           JVal.jobj [("bool", JVal.jobj
            [("should", JVal.jarr
              [specWildcardClause "product_name" params.Keyword,
               specWildcardClause "drug_generic" params.Keyword,
               specWildcardClause "company" params.Keyword])])]])])]),
     ("sort", JVal.jarr
       [JVal.jobj [("_score", JVal.jobj [("order", JVal.jstr "desc")])],
        JVal.jobj [("product_name.keyword", JVal.jobj [("order", JVal.jstr "asc")])]]),
     ("from", JVal.jnum params.Offset),
     ("size", JVal.jnum params.Limit)]

/-- C2: for every `ProductSearchParams`, `buildProductQuery` with an empty
keyword produces exactly the plain paginated `{from, size}` query (no query
clause, no sort), and with a non-empty keyword exactly the boolean
should-query (fuzzy match OR wildcard over the three fields) with the
`_score`-descending, `product_name.keyword`-ascending sort and the same
`from`/`size`. -/
theorem c2_build_product_query (params : Models.ProductSearchParams) :
    Repo.buildProductQuery params =
      if params.Keyword = "" then specPlainQuery params
      else specKeywordQuery params := by
  by_cases h : params.Keyword = "" <;>
    simp [Repo.buildProductQuery, specPlainQuery, specKeywordQuery,
      specFuzzyClause, specWildcardClause, h]

end ESpec

namespace ESpec.Handlers

open ESpec

/-- Body of an HTTP response of the product handler: the structured error
envelope `common.NewError` (`{is_success:false, message, error}`) or the
paginated success envelope `common.NewPagedSuccess`. -/
inductive HBody where
  | errorBody (message : String) (error : String)
  | pagedBody (data : List Models.Product) (message : String)
      (total : Int) (limit : Int) (offset : Int)
      (currentPage : Int) (totalPages : Int)
deriving DecidableEq, Repr

/-- An HTTP response: status code and JSON body. -/
structure HttpResponse where
  status : Nat
  body : HBody
deriving DecidableEq, Repr

/-- `(*ProductHandler).GetProducts` (handlers package, `src/unnamed/part_005`,
lines 39-81). The fiber query accessors are modelled by the optional raw
query strings (`none` = parameter absent, so the declared defaults "10" and
"0" apply); the product service is modelled by its outcome function `svc`.
The `err.Error()` text of a `strconv` failure is abbreviated to a fixed
token (no claim reads it). -/
def GetProducts (limitQ offsetQ : Option String) (keyword : String)
    (svc : Models.ProductSearchParams → Except String Services.ProductSearchResult) :
    HttpResponse :=
  let limitStr := limitQ.getD "10"
  let offsetStr := offsetQ.getD "0"
  match parseGoInt limitStr with
  | none => { status := 400, body := .errorBody "Invalid limit parameter" "strconv error" }
  | some limit =>
    match parseGoInt offsetStr with
    | none => { status := 400, body := .errorBody "Invalid offset parameter" "strconv error" }
    | some offset =>
      match svc { Limit := limit, Offset := offset, Keyword := keyword } with
      | .error e =>
        { status := 500, body := .errorBody "Failed to retrieve products" e }
      | .ok result =>
        { status := 200,
          body := .pagedBody result.Products "Products retrieved successfully"
            result.TotalCount result.Limit result.Offset
            result.CurrentPage result.TotalPages }

end ESpec.Handlers

namespace ESpec

/-- C7: `GET /product` parses `limit` with default `"10"` and `offset` with
default `"0"`; it returns `400` with the structured error body exactly when
`limit` (checked first) or `offset` fails integer parsing; it returns `500`
with `{is_success:false, message, error}` when the service errors; and
otherwise `200` with the paginated success envelope echoing the service
result's total, limit, offset, current page and total pages. -/
theorem c7_get_products_handler (limitQ offsetQ : Option String) (keyword : String)
    (svc : Models.ProductSearchParams → Except String Services.ProductSearchResult) :
    (parseGoInt (limitQ.getD "10") = none →
      Handlers.GetProducts limitQ offsetQ keyword svc =
        { status := 400, body := .errorBody "Invalid limit parameter" "strconv error" })
    ∧ (∀ l, parseGoInt (limitQ.getD "10") = some l →
        parseGoInt (offsetQ.getD "0") = none →
        Handlers.GetProducts limitQ offsetQ keyword svc =
          { status := 400, body := .errorBody "Invalid offset parameter" "strconv error" })
    ∧ (∀ l o e, parseGoInt (limitQ.getD "10") = some l →
        parseGoInt (offsetQ.getD "0") = some o →
        svc { Limit := l, Offset := o, Keyword := keyword } = .error e →
        Handlers.GetProducts limitQ offsetQ keyword svc =
          { status := 500, body := .errorBody "Failed to retrieve products" e })
    ∧ (∀ l o r, parseGoInt (limitQ.getD "10") = some l →
        parseGoInt (offsetQ.getD "0") = some o →
        svc { Limit := l, Offset := o, Keyword := keyword } = .ok r →
        Handlers.GetProducts limitQ offsetQ keyword svc =
          { status := 200,
            body := .pagedBody r.Products "Products retrieved successfully"
              r.TotalCount r.Limit r.Offset r.CurrentPage r.TotalPages }) := by
  refine ⟨fun h1 => ?_, fun l h1 h2 => ?_, fun l o e h1 h2 h3 => ?_,
    fun l o r h1 h2 h3 => ?_⟩ <;>
    simp [Handlers.GetProducts, h1]
  · simp [h2]
  · simp [h2, h3]
  · simp [h2, h3]

/-- C7 witness: the theorem applied with `limit = "abc"` (a 400), and with
absent parameters plus a service stub returning an empty page (a 200 with
the echoed pagination), covering hypothesis-bearing branches at concrete
inputs. -/
theorem c7_get_products_handler_witness :
    Handlers.GetProducts (some "abc") none ""
        (fun _ => .ok { Products := [], TotalCount := 0, Limit := 10, Offset := 0,
                        CurrentPage := 1, TotalPages := 1 }) =
      { status := 400, body := .errorBody "Invalid limit parameter" "strconv error" }
    ∧ Handlers.GetProducts none none ""
        (fun _ => .ok { Products := [], TotalCount := 0, Limit := 10, Offset := 0,
                        CurrentPage := 1, TotalPages := 1 }) =
      { status := 200,
        body := .pagedBody [] "Products retrieved successfully" 0 10 0 1 1 } := by
  constructor
  · exact (c7_get_products_handler (some "abc") none ""
      (fun _ => .ok { Products := [], TotalCount := 0, Limit := 10, Offset := 0,
                      CurrentPage := 1, TotalPages := 1 })).1 (by decide)
  · exact (c7_get_products_handler none none ""
      (fun _ => .ok { Products := [], TotalCount := 0, Limit := 10, Offset := 0,
                      CurrentPage := 1, TotalPages := 1 })).2.2.2 10 0
      { Products := [], TotalCount := 0, Limit := 10, Offset := 0,
        CurrentPage := 1, TotalPages := 1 } (by decide) (by decide) rfl

end ESpec

namespace ESpec.Importer

open ESpec

/-- One step of `parseCSVLine`'s character loop
(`internal/storage/elasticsearch/importer.go`, lines 157-188): a double
quote toggles `inQuotes` (and is not written), a comma outside quotes ends
the current field, everything else is appended. `cur` holds the current
field reversed. -/
def parseCSVAux : List Char → Bool → List Char → List (List Char)
  | [], _inQ, cur => [cur.reverse]
  | c :: cs, inQ, cur =>
    if c = quoteChar then parseCSVAux cs (!inQ) cur
    else if c = ',' then
      if inQ then parseCSVAux cs inQ (c :: cur)
      else cur.reverse :: parseCSVAux cs inQ []
    else parseCSVAux cs inQ (c :: cur)

/-- `parseCSVLine`: split on unquoted commas, then trim every field of
surrounding quotes and whitespace. -/
def parseCSVLine (line : String) : List String :=
  (parseCSVAux line.data false []).map (fun f => goTrim (String.mk f))

/-- The required CSV columns (`requiredColumns` in `importer.go`). -/
def requiredColumns : List String := ["id", "product_name", "drug_generic", "company"]

/-- Insert into a Go map modelled as an association list: overwrite an
existing key, append a fresh one. -/
def upsert (m : List (String × Nat)) (k : String) (v : Nat) : List (String × Nat) :=
  match m with
  | [] => [(k, v)]
  | (k0, v0) :: rest => if k0 = k then (k, v) :: rest else (k0, v0) :: upsert rest k v

/-- The `columnMap` construction loop of `validateCSVHeaders`: map each
lowercased header field to its index (a later duplicate overwrites an
earlier one, as in a Go map). -/
def buildColumnMapAux : List String → Nat → List (String × Nat) → List (String × Nat)
  | [], _, m => m
  | f :: rest, i, m => buildColumnMapAux rest (i + 1) (upsert m (toLowerGo f) i)

/-- `columnMap` built from the parsed header fields. -/
def buildColumnMap (fields : List String) : List (String × Nat) :=
  buildColumnMapAux fields 0 []

/-- The `MissingColumn` error text of `validateCSVHeaders`. -/
def missingColMsg (c : String) : String :=
  "required column " ++ squote ++ c ++ squote ++ " not found in spreadsheet"

/-- The required-column verification loop of `validateCSVHeaders`: first
required column absent from the map wins. -/
def checkRequired (m : List (String × Nat)) : List String → Except String Unit
  | [] => .ok ()
  | c :: rest =>
    match List.lookup c m with
    | some _ => checkRequired m rest
    | none => .error (missingColMsg c)

/-- The first required column missing from the column map, if any
(the column the `MissingColumn` error names). -/
def firstMissing (m : List (String × Nat)) : List String → Option String
  | [] => none
  | c :: rest => if (List.lookup c m).isSome then firstMissing m rest else some c

/-- `validateCSVHeaders` (`importer.go`, lines 95-113). -/
def validateCSVHeaders (headerLine : String) : Except String (List (String × Nat)) :=
  let m := buildColumnMap (parseCSVLine headerLine)
  match checkRequired m requiredColumns with
  | .ok _ => .ok m
  | .error e => .error e

/-- Go map read `columnMap[col]`: the zero value `0` when the key is
absent. -/
def lookupNat (m : List (String × Nat)) (k : String) : Nat :=
  (List.lookup k m).getD 0

/-- Go slice indexing `fields[i]`: a runtime panic when out of range. -/
def goSliceGet (fields : List String) (i : Nat) : GoResult String :=
  match fields[i]? with
  | some s => .ok s
  | none => .panicked "runtime error: index out of range"

/-- One iteration of the `processCSVDataLines` row loop (`importer.go`,
lines 121-152): skip empty lines, skip rows with fewer fields than the
required columns, read and parse the `id` field (skipping the row when the
parse fails), then build the `Product` stamped with the shared timestamp
`now`. `.ok none` is a skipped row; `.panicked` an out-of-range access. -/
def processRow (cmap : List (String × Nat)) (now : String) (line : String) :
    GoResult (Option Models.Product) :=
  if line.data.length = 0 then .ok none
  else
    let fields := parseCSVLine line
    if fields.length < requiredColumns.length then .ok none
    else
      match goSliceGet fields (lookupNat cmap "id") with
      | .panicked m => .panicked m
      | .err m => .err m
      | .ok idStr =>
        match parseGoUint64 idStr with
        | none => .ok none
        | some id =>
          match goSliceGet fields (lookupNat cmap "product_name") with
          | .panicked m => .panicked m
          | .err m => .err m
          | .ok pn =>
            match goSliceGet fields (lookupNat cmap "drug_generic") with
            | .panicked m => .panicked m
            | .err m => .err m
            | .ok dg =>
              match goSliceGet fields (lookupNat cmap "company") with
              | .panicked m => .panicked m
              | .err m => .err m
              | .ok co =>
                .ok (some { ID := id, ProductName := pn, DrugGeneric := dg,
                            Company := co, Score := 0,
                            CreatedAt := now, UpdatedAt := now })

/-- The `processCSVDataLines` loop over the data rows. -/
def processRows (cmap : List (String × Nat)) (now : String) :
    List String → GoResult (List Models.Product)
  | [] => .ok []
  | line :: rest =>
    match processRow cmap now line with
    | .panicked m => .panicked m
    | .err m => .err m
    | .ok none => processRows cmap now rest
    | .ok (some p) =>
      match processRows cmap now rest with
      | .ok ps => .ok (p :: ps)
      | .err m => .err m
      | .panicked m => .panicked m

/-- `processCSVDataLines` (`importer.go`, lines 116-155): the loop starts
at index 1, i.e. on `lines.drop 1`; `now := time.Now()` is taken once and
passed in as the opaque `now`. -/
def processCSVDataLines (lines : List String) (cmap : List (String × Nat))
    (now : String) : GoResult (List Models.Product) :=
  processRows cmap now (lines.drop 1)

/-- The per-row outcome as a pure partial function (`none` both for a
skipped row and for an out-of-range access, which in the running code is a
panic): the reference point for what `processCSVDataLines` produces when it
completes normally. -/
def rowOption (cmap : List (String × Nat)) (now : String) (line : String) :
    Option Models.Product :=
  if line.data.length = 0 then none
  else
    let fields := parseCSVLine line
    if fields.length < requiredColumns.length then none
    else
      match fields[lookupNat cmap "id"]? with
      | none => none
      | some idStr =>
        match parseGoUint64 idStr with
        | none => none
        | some id =>
          match fields[lookupNat cmap "product_name"]?,
                fields[lookupNat cmap "drug_generic"]?,
                fields[lookupNat cmap "company"]? with
          | some pn, some dg, some co =>
            some { ID := id, ProductName := pn, DrugGeneric := dg,
                   Company := co, Score := 0, CreatedAt := now, UpdatedAt := now }
          | _, _, _ => none

end ESpec.Importer

namespace ESpec.Importer

open ESpec

/-- Outcome of one bulk request (`req.Do` then `res.IsError()`): transport
failure, engine error response, or success. The loop body treats all three
the same apart from the log line. -/
inductive BatchOutcome where
  | success
  | transportError (msg : String)
  | engineError (msg : String)
deriving DecidableEq, Repr

/-- Log lines the bulk loop can emit per request. -/
inductive LogEntry where
  | bulkFailed (msg : String)
  | bulkError (msg : String)
  | processed (n : Nat)
deriving DecidableEq, Repr

/-- `true` exactly on a transport error (`err != nil` after `req.Do`). -/
def BatchOutcome.isTransport : BatchOutcome → Bool
  | .transportError _ => true
  | _ => false

/-- The `importProductsBulk` loop (`importer.go`, lines 203-242). `i` is
the loop index, `n = len(products)`, `k` counts network requests (indexing
the oracle), `cur` is the accumulated batch body. A batch is sent when
`(i+1) % 100 == 0` or `i == n-1`; no request outcome aborts the loop. On a
transport error the Go code does `continue`, which SKIPS `bulkBody.Reset()`
— the accumulated body is kept and the failed documents are re-carried
into the next request; an engine error response or a success falls through
to `bulkBody.Reset()`, clearing the body. `json.Marshal` of a `Product`
cannot fail and is modelled as total. Returns the attempted request bodies
and the log. -/
def bulkLoop (oracle : Nat → BatchOutcome) (n : Nat) :
    List Models.Product → Nat → Nat → List Models.Product →
    List (List Models.Product) × List LogEntry
  | [], _i, _k, _cur => ([], [])
  | p :: rest, i, k, cur =>
    let cur2 := cur ++ [p]
    if (i + 1) % 100 = 0 ∨ i = n - 1 then
      let out := oracle k
      let log :=
        match out with
        | .transportError m => LogEntry.bulkFailed m
        | .engineError m => LogEntry.bulkError m
        | .success => LogEntry.processed (goMin 100 (n - i + 100 - 1))
      let nextBody :=
        match out with
        | .transportError _ => cur2
        | _ => []
      let res := bulkLoop oracle n rest (i + 1) (k + 1) nextBody
      (cur2 :: res.1, log :: res.2)
    else
      bulkLoop oracle n rest (i + 1) k cur2

/-- `importProductsBulk` (`importer.go`, lines 191-246): empty input is an
immediate `nil` return with no request; otherwise the batching loop runs
and the function returns `nil` unconditionally. Result: attempted batches,
log, and the Go return value. -/
def importProductsBulk (products : List Models.Product)
    (oracle : Nat → BatchOutcome) :
    List (List Models.Product) × List LogEntry × Except String Unit :=
  if products.isEmpty then ([], [], .ok ())
  else
    let res := bulkLoop oracle products.length products 0 0 []
    (res.1, res.2, .ok ())

/-- Character class of the spreadsheet-id capture group
(`[a-zA-Z0-9-_]`). -/
def sheetIdChar (c : Char) : Bool := c.isAlphanum || c = '-' || c = '_'

/-- Leftmost match of the pattern `/d/([a-zA-Z0-9-_]+)` (the
`regexp.FindStringSubmatch` of `extractSpreadsheetID`): scan for `/d/`,
capture the maximal nonempty run of id characters, otherwise keep
scanning. -/
def findSheetId : List Char → Option (List Char)
  | [] => none
  | '/' :: 'd' :: '/' :: rest2 =>
    let run := rest2.takeWhile sheetIdChar
    if run.length > 0 then some run else findSheetId ('d' :: '/' :: rest2)
  | _ :: rest => findSheetId rest

/-- `extractSpreadsheetID` (`importer.go`, lines 292-303). -/
def extractSpreadsheetID (url : String) : Except String String :=
  match findSheetId url.data with
  | some run => .ok (String.mk run)
  | none => .error "could not extract spreadsheet ID from URL"

/-- The external calls an import run performs: the CSV download
(`http.Get` in `downloadGoogleSheetCSV`), the index-existence/creation
round trip (`createIndexIfNotExists`), and one bulk write per attempted
batch. -/
inductive Effect where
  | download
  | createIndex
  | bulkSend (batch : List Models.Product)
deriving DecidableEq, Repr

/-- The Google Sheets URL marker tested by `ImportFromExcel`. -/
def sheetsMarker : String := "docs.google.com/spreadsheets"

/-- `importFromGoogleSheets` (`importer.go`, lines 33-69). `dl` models
`downloadGoogleSheetCSV` (its outcome per spreadsheet id), `idxOk` the
outcome of `createIndexIfNotExists`, `blk` the per-request bulk outcomes,
`now` the `time.Now()` of `processCSVDataLines`. Returns the Go outcome and
the trace of external calls made. -/
def importFromGoogleSheets (url : String) (dl : String → Except String String)
    (idxOk : Bool) (blk : Nat → BatchOutcome) (now : String) :
    GoResult Unit × List Effect :=
  match extractSpreadsheetID url with
  | .error e => (.err e, [])
  | .ok sid =>
    match dl sid with
    | .error e => (.err e, [Effect.download])
    | .ok csvData =>
      let lines := goSplitLines csvData
      if lines.length < 2 then
        (.err "spreadsheet contains no data", [Effect.download])
      else
        match validateCSVHeaders (lines.headD "") with
        | .error e => (.err e, [Effect.download])
        | .ok cmap =>
          if !idxOk then
            (.err "failed to create index", [Effect.download, Effect.createIndex])
          else
            match processCSVDataLines lines cmap now with
            | .panicked m => (.panicked m, [Effect.download, Effect.createIndex])
            | .err m => (.err m, [Effect.download, Effect.createIndex])
            | .ok products =>
              let res := importProductsBulk products blk
              (match res.2.2 with
               | .ok _ => .ok ()
               | .error e => .err e,
               Effect.download :: Effect.createIndex :: res.1.map Effect.bulkSend)

/-- `ImportFromExcel` (`importer.go`, lines 22-30): a locator without the
Google Sheets marker fails immediately (`local file import not
implemented`) with no external call; otherwise the Google Sheets path
runs. -/
def ImportFromExcel (filePath : String) (dl : String → Except String String)
    (idxOk : Bool) (blk : Nat → BatchOutcome) (now : String) :
    GoResult Unit × List Effect :=
  if goContains filePath sheetsMarker then
    importFromGoogleSheets filePath dl idxOk blk now
  else
    (.err "local file import not implemented", [])

end ESpec.Importer

namespace ESpec

/-- C8: `ImportFromExcel` accepts only a Google-Sheets-style URL: a locator
without the marker fails immediately with the unsupported-source error and
an empty call trace (no network or index operation); a locator with the
marker but no extractable `/d/<id>` segment fails with the
invalid-source-URL error, likewise before any external call. -/
theorem c8_import_source (url : String) (dl : String → Except String String)
    (idxOk : Bool) (blk : Nat → Importer.BatchOutcome) (now : String) :
    (goContains url Importer.sheetsMarker = false →
      Importer.ImportFromExcel url dl idxOk blk now =
        (.err "local file import not implemented", []))
    ∧ (goContains url Importer.sheetsMarker = true →
      Importer.findSheetId url.data = none →
      Importer.ImportFromExcel url dl idxOk blk now =
        (.err "could not extract spreadsheet ID from URL", [])) := by
  constructor
  · intro h
    simp [Importer.ImportFromExcel, h]
  · intro h1 h2
    simp [Importer.ImportFromExcel, h1, Importer.importFromGoogleSheets,
      Importer.extractSpreadsheetID, h2]

/-- C8 witness: a local path is rejected as unsupported; a spreadsheets URL
without a `/d/<id>` segment is rejected as invalid — both with an empty
call trace. -/
theorem c8_import_source_witness :
    Importer.ImportFromExcel "/tmp/products.xlsx" (fun _ => .ok "")
        true (fun _ => .success) "t" =
      (.err "local file import not implemented", [])
    ∧ Importer.ImportFromExcel "https://docs.google.com/spreadsheets/u/0/edit"
        (fun _ => .ok "") true (fun _ => .success) "t" =
      (.err "could not extract spreadsheet ID from URL", []) := by
  constructor
  · exact (c8_import_source "/tmp/products.xlsx" (fun _ => .ok "")
      true (fun _ => .success) "t").1 (by decide)
  · exact (c8_import_source "https://docs.google.com/spreadsheets/u/0/edit"
      (fun _ => .ok "") true (fun _ => .success) "t").2 (by decide) (by decide)

end ESpec

namespace ESpec

/-- When some required column is missing, the validation loop errors on the
first missing one. -/
theorem checkRequired_of_firstMissing (m : List (String × Nat)) :
    ∀ (cols : List String) (c : String), Importer.firstMissing m cols = some c →
      Importer.checkRequired m cols = .error (Importer.missingColMsg c) := by
  intro cols
  induction cols with
  | nil => intro c h; simp [Importer.firstMissing] at h
  | cons c0 rest ih =>
    intro c h
    simp only [Importer.firstMissing] at h
    by_cases hl : (List.lookup c0 m).isSome
    · rw [if_pos hl] at h
      obtain ⟨v, hv⟩ := Option.isSome_iff_exists.mp hl
      simp only [Importer.checkRequired, hv]
      exact ih c h
    · rw [if_neg hl] at h
      injection h with h
      subst h
      have : List.lookup c0 m = none := Option.not_isSome_iff_eq_none.mp hl
      simp [Importer.checkRequired, this]

/-- `validateCSVHeaders` fails with the `MissingColumn` message of the
first missing required column. -/
theorem validateCSVHeaders_missing (headerLine : String) (c : String)
    (h : Importer.firstMissing
        (Importer.buildColumnMap (Importer.parseCSVLine headerLine))
        Importer.requiredColumns = some c) :
    Importer.validateCSVHeaders headerLine = .error (Importer.missingColMsg c) := by
  simp [Importer.validateCSVHeaders, checkRequired_of_firstMissing _ _ _ h]

/-- C4 (claim as stated is refuted here): a downloaded CSV export
consisting of the single line `"abc"` has a header lacking the required
`company` column (indeed all four), yet the import fails with the
empty-dataset error, not with a `MissingColumn` error naming an absent
column (the line-count check runs first). -/
theorem c4_missing_column_counterexample :
    Importer.importFromGoogleSheets "https://docs.google.com/spreadsheets/d/ABC/edit"
        (fun _ => .ok "abc") true (fun _ => .success) "t" =
      (.err "spreadsheet contains no data", [Importer.Effect.download])
    ∧ List.lookup "company"
        (Importer.buildColumnMap (Importer.parseCSVLine "abc")) = none
    ∧ "spreadsheet contains no data" ∉
        Importer.requiredColumns.map Importer.missingColMsg := by
  refine ⟨rfl, rfl, by decide⟩

/-- C4 (amended): for every CSV input that splits into at least two lines
and whose header lacks a required column (case-insensitively — the column
map is keyed by lowercased header fields), the import fails with the
`MissingColumn` error naming the first absent required column, and the
call trace shows only the download: no index-creation and no bulk-write
call is made on this error path. -/
theorem c4_missing_column (url : String) (dl : String → Except String String)
    (idxOk : Bool) (blk : Nat → Importer.BatchOutcome) (now : String)
    (sid csv c : String)
    (h1 : Importer.extractSpreadsheetID url = .ok sid)
    (h2 : dl sid = .ok csv)
    (h3 : 2 ≤ (goSplitLines csv).length)
    (h4 : Importer.firstMissing
        (Importer.buildColumnMap (Importer.parseCSVLine ((goSplitLines csv).headD "")))
        Importer.requiredColumns = some c) :
    Importer.importFromGoogleSheets url dl idxOk blk now =
      (.err (Importer.missingColMsg c), [Importer.Effect.download]) := by
  have hv := validateCSVHeaders_missing ((goSplitLines csv).headD "") c h4
  simp only [Importer.importFromGoogleSheets, h1, h2, hv]
  rw [if_neg (by omega)]

/-- C4 witness: the amended theorem at a concrete Google Sheets URL whose
download yields `id,name` over one data row: the run stops with the
`MissingColumn` error for `product_name` after the download only. -/
theorem c4_missing_column_witness :
    Importer.importFromGoogleSheets "https://docs.google.com/spreadsheets/d/ABC/edit"
        (fun _ => .ok "id,name\n1,a") true (fun _ => .success) "t" =
      (.err (Importer.missingColMsg "product_name"), [Importer.Effect.download]) :=
  c4_missing_column "https://docs.google.com/spreadsheets/d/ABC/edit"
    (fun _ => .ok "id,name\n1,a") true (fun _ => .success) "t"
    "ABC" "id,name\n1,a" "product_name" rfl rfl (by decide) (by decide)

end ESpec

namespace ESpec

theorem processRow_ok (cmap : List (String × Nat)) (now line : String)
    (o : Option Models.Product)
    (h : Importer.processRow cmap now line = .ok o) :
    Importer.rowOption cmap now line = o := by
  unfold Importer.processRow Importer.goSliceGet at h
  unfold Importer.rowOption
  by_cases h0 : line.data.length = 0
  · rw [if_pos h0] at h
    rw [if_pos h0]
    exact GoResult.ok.inj h
  rw [if_neg h0] at h
  rw [if_neg h0]
  by_cases h1 : (Importer.parseCSVLine line).length < Importer.requiredColumns.length
  · rw [if_pos h1] at h
    rw [if_pos h1]
    exact GoResult.ok.inj h
  rw [if_neg h1] at h
  rw [if_neg h1]
  cases hid : (Importer.parseCSVLine line)[Importer.lookupNat cmap "id"]? with
  | none =>
    simp only [hid] at h
    exact GoResult.noConfusion h
  | some idStr =>
    simp only [hid] at h ⊢
    cases hp : parseGoUint64 idStr with
    | none =>
      simp only [hp] at h ⊢
      exact GoResult.ok.inj h
    | some id =>
      simp only [hp] at h ⊢
      cases hpn : (Importer.parseCSVLine line)[Importer.lookupNat cmap "product_name"]? with
      | none =>
        simp only [hpn] at h
        exact GoResult.noConfusion h
      | some pn =>
        simp only [hpn] at h ⊢
        cases hdg : (Importer.parseCSVLine line)[Importer.lookupNat cmap "drug_generic"]? with
        | none =>
          simp only [hdg] at h
          exact GoResult.noConfusion h
        | some dg =>
          simp only [hdg] at h ⊢
          cases hco : (Importer.parseCSVLine line)[Importer.lookupNat cmap "company"]? with
          | none =>
            simp only [hco] at h
            exact GoResult.noConfusion h
          | some co =>
            simp only [hco] at h ⊢
            exact GoResult.ok.inj h

end ESpec

namespace ESpec

theorem processRows_ok (cmap : List (String × Nat)) (now : String) :
    ∀ (rows : List String) (ps : List Models.Product),
      Importer.processRows cmap now rows = .ok ps →
      ps = rows.filterMap (Importer.rowOption cmap now) := by
  intro rows
  induction rows with
  | nil =>
    intro ps h
    simp only [Importer.processRows] at h
    simp [(GoResult.ok.inj h).symm]
  | cons line rest ih =>
    intro ps h
    simp only [Importer.processRows] at h
    cases hr : Importer.processRow cmap now line with
    | panicked m => rw [hr] at h; exact GoResult.noConfusion h
    | err m => rw [hr] at h; exact GoResult.noConfusion h
    | ok o =>
      rw [hr] at h
      have hrow := processRow_ok cmap now line o hr
      cases o with
      | none =>
        simp only [List.filterMap_cons, hrow]
        exact ih ps h
      | some p =>
        simp only [] at h
        cases hrest : Importer.processRows cmap now rest with
        | panicked m => rw [hrest] at h; exact GoResult.noConfusion h
        | err m => rw [hrest] at h; exact GoResult.noConfusion h
        | ok ps2 =>
          rw [hrest] at h
          simp only [List.filterMap_cons, hrow]
          rw [(GoResult.ok.inj h).symm]
          rw [ih ps2 hrest]

theorem rowOption_some (cmap : List (String × Nat)) (now line : String)
    (p : Models.Product) (h : Importer.rowOption cmap now line = some p) :
    p.CreatedAt = now ∧ p.UpdatedAt = now ∧
      ∃ idStr, (Importer.parseCSVLine line)[Importer.lookupNat cmap "id"]? = some idStr
        ∧ parseGoUint64 idStr = some p.ID := by
  unfold Importer.rowOption at h
  by_cases h0 : line.data.length = 0
  · rw [if_pos h0] at h; exact Option.noConfusion h
  rw [if_neg h0] at h
  by_cases h1 : (Importer.parseCSVLine line).length < Importer.requiredColumns.length
  · rw [if_pos h1] at h; exact Option.noConfusion h
  rw [if_neg h1] at h
  cases hid : (Importer.parseCSVLine line)[Importer.lookupNat cmap "id"]? with
  | none => rw [hid] at h; exact Option.noConfusion h
  | some idStr =>
    simp only [hid] at h
    cases hp : parseGoUint64 idStr with
    | none =>
      simp only [hp] at h
      exact Option.noConfusion h
    | some id =>
      simp only [hp] at h
      cases hpn : (Importer.parseCSVLine line)[Importer.lookupNat cmap "product_name"]? with
      | none =>
        simp only [hpn] at h
        exact Option.noConfusion h
      | some pn =>
        cases hdg : (Importer.parseCSVLine line)[Importer.lookupNat cmap "drug_generic"]? with
        | none =>
          simp only [hpn, hdg] at h
          exact Option.noConfusion h
        | some dg =>
          cases hco : (Importer.parseCSVLine line)[Importer.lookupNat cmap "company"]? with
          | none =>
            simp only [hpn, hdg, hco] at h
            exact Option.noConfusion h
          | some co =>
            simp only [hpn, hdg, hco] at h
            have hp' := (Option.some.inj h).symm
            subst hp'
            exact ⟨rfl, rfl, idStr, rfl, hp⟩

end ESpec

namespace ESpec

theorem c6_processed_rows (lines : List String) (cmap : List (String × Nat))
    (now : String) (ps : List Models.Product)
    (h : Importer.processCSVDataLines lines cmap now = .ok ps) :
    ps = (lines.drop 1).filterMap (Importer.rowOption cmap now)
    ∧ ∀ p ∈ ps, p.CreatedAt = now ∧ p.UpdatedAt = now ∧
        ∃ line ∈ lines.drop 1, ∃ idStr,
          (Importer.parseCSVLine line)[Importer.lookupNat cmap "id"]? = some idStr
          ∧ parseGoUint64 idStr = some p.ID := by
  unfold Importer.processCSVDataLines at h
  have h1 := processRows_ok cmap now (lines.drop 1) ps h
  refine ⟨h1, fun p hp => ?_⟩
  rw [h1] at hp
  obtain ⟨line, hline, hrow⟩ := List.mem_filterMap.mp hp
  obtain ⟨hc, hu, idStr, hid, hpu⟩ := rowOption_some cmap now line p hrow
  exact ⟨hc, hu, line, hline, idStr, hid, hpu⟩

theorem processRow_no_panic (cmap : List (String × Nat)) (now line : String)
    (hb : line.data.length ≠ 0 →
      ¬ (Importer.parseCSVLine line).length < Importer.requiredColumns.length →
      ∀ col ∈ Importer.requiredColumns,
        Importer.lookupNat cmap col < (Importer.parseCSVLine line).length) :
    (Importer.processRow cmap now line).isPanic = false := by
  unfold Importer.processRow Importer.goSliceGet
  by_cases h0 : line.data.length = 0
  · rw [if_pos h0]; rfl
  rw [if_neg h0]
  by_cases h1 : (Importer.parseCSVLine line).length < Importer.requiredColumns.length
  · rw [if_pos h1]; rfl
  rw [if_neg h1]
  have h4 := hb h0 h1
  have hid := h4 "id" (by simp [Importer.requiredColumns])
  have hpn := h4 "product_name" (by simp [Importer.requiredColumns])
  have hdg := h4 "drug_generic" (by simp [Importer.requiredColumns])
  have hco := h4 "company" (by simp [Importer.requiredColumns])
  simp only [List.getElem?_eq_getElem hid, List.getElem?_eq_getElem hpn,
    List.getElem?_eq_getElem hdg, List.getElem?_eq_getElem hco]
  cases hp : parseGoUint64 ((Importer.parseCSVLine line)[Importer.lookupNat cmap "id"]) <;>
    simp [GoResult.isPanic]

theorem processRows_no_panic (cmap : List (String × Nat)) (now : String) :
    ∀ (rows : List String),
      (∀ line ∈ rows, line.data.length ≠ 0 →
        ¬ (Importer.parseCSVLine line).length < Importer.requiredColumns.length →
        ∀ col ∈ Importer.requiredColumns,
          Importer.lookupNat cmap col < (Importer.parseCSVLine line).length) →
      (Importer.processRows cmap now rows).isPanic = false := by
  intro rows
  induction rows with
  | nil => intro _; rfl
  | cons line rest ih =>
    intro hb
    simp only [Importer.processRows]
    cases hr : Importer.processRow cmap now line with
    | panicked m =>
      have := processRow_no_panic cmap now line (hb line (by simp))
      rw [hr] at this
      exact absurd this (by simp [GoResult.isPanic])
    | err m => rfl
    | ok o =>
      have hrest := ih (fun l hl => hb l (List.mem_cons_of_mem _ hl))
      cases o with
      | none => exact hrest
      | some p =>
        cases hrest2 : Importer.processRows cmap now rest with
        | panicked m => rw [hrest2] at hrest; exact absurd hrest (by simp [GoResult.isPanic])
        | err m => rfl
        | ok ps => rfl

end ESpec

namespace ESpec

/-- C6: whenever `processCSVDataLines` completes normally, its output is
exactly the row-wise filter-map of the data lines (rows with fewer fields
than the required columns, an unparseable `id`, or empty text are excluded
without aborting the run), and every produced record has `created_at` and
`updated_at` equal to the single timestamp `now` taken at the start of
processing and an `ID` successfully parsed as an unsigned 64-bit integer
from the row's `id` column. -/
theorem c6_process_csv_data_lines (lines : List String)
    (cmap : List (String × Nat)) (now : String) (ps : List Models.Product)
    (h : Importer.processCSVDataLines lines cmap now = .ok ps) :
    ps = (lines.drop 1).filterMap (Importer.rowOption cmap now)
    ∧ ∀ p ∈ ps, p.CreatedAt = now ∧ p.UpdatedAt = now ∧
        ∃ line ∈ lines.drop 1, ∃ idStr,
          (Importer.parseCSVLine line)[Importer.lookupNat cmap "id"]? = some idStr
          ∧ parseGoUint64 idStr = some p.ID :=
  c6_processed_rows lines cmap now ps h

/-- C6 witness: a concrete run over one good row and one row with a
non-numeric id; only the good row survives, stamped with the shared
timestamp. -/
theorem c6_process_csv_data_lines_witness :
    [(⟨1, "a", "b", "c", 0, "t", "t"⟩ : Models.Product)] =
      (["id,product_name,drug_generic,company", "1,a,b,c", "x,y,z,w"].drop 1).filterMap
        (Importer.rowOption
          [("id", 0), ("product_name", 1), ("drug_generic", 2), ("company", 3)] "t")
    ∧ (⟨1, "a", "b", "c", 0, "t", "t"⟩ : Models.Product).CreatedAt = "t" := by
  have h := c6_process_csv_data_lines
    ["id,product_name,drug_generic,company", "1,a,b,c", "x,y,z,w"]
    [("id", 0), ("product_name", 1), ("drug_generic", 2), ("company", 3)] "t"
    [⟨1, "a", "b", "c", 0, "t", "t"⟩] rfl
  exact ⟨h.1, (h.2 _ (by decide)).1⟩

end ESpec

namespace ESpec

/-- C9 (claim as stated is refuted here): with the valid wider header
`a,b,c,d,id,product_name,drug_generic,company` (which passes
`validateCSVHeaders`, mapping `id` to index 4) and the data row `1,2,3,4`
(4 fields, so the fewer-fields guard passes), the access
`fields[columnMap[id]]` is out of bounds: `processCSVDataLines` is not
total but panics with an index-out-of-range runtime error. -/
theorem c9_out_of_range_counterexample :
    Importer.validateCSVHeaders "a,b,c,d,id,product_name,drug_generic,company" =
      .ok [("a", 0), ("b", 1), ("c", 2), ("d", 3), ("id", 4),
           ("product_name", 5), ("drug_generic", 6), ("company", 7)]
    ∧ Importer.processCSVDataLines
        ["a,b,c,d,id,product_name,drug_generic,company", "1,2,3,4"]
        [("a", 0), ("b", 1), ("c", 2), ("d", 3), ("id", 4),
         ("product_name", 5), ("drug_generic", 6), ("company", 7)] "t" =
      .panicked "runtime error: index out of range" :=
  ⟨rfl, rfl⟩

/-- C9 (amended): `processCSVDataLines` never panics — every access
`fields[columnMap[col]]` is in bounds — provided that on every non-empty
data row that passes the fewer-fields guard, the mapped index of each
required column is below the row's field count. When a required column's
index is at or beyond the row's field count (possible when the header has
more columns than the row has fields), the access is out of range and the
run panics. -/
theorem c9_no_out_of_range (lines : List String) (cmap : List (String × Nat))
    (now : String)
    (hb : ∀ line ∈ lines.drop 1, line.data.length ≠ 0 →
      ¬ (Importer.parseCSVLine line).length < Importer.requiredColumns.length →
      ∀ col ∈ Importer.requiredColumns,
        Importer.lookupNat cmap col < (Importer.parseCSVLine line).length) :
    (Importer.processCSVDataLines lines cmap now).isPanic = false :=
  processRows_no_panic cmap now (lines.drop 1) hb

/-- C9 witness: with the aligned four-column header every access is in
bounds and the run completes without panic. -/
theorem c9_no_out_of_range_witness :
    (Importer.processCSVDataLines
        ["id,product_name,drug_generic,company", "1,a,b,c", "2,d"]
        [("id", 0), ("product_name", 1), ("drug_generic", 2), ("company", 3)]
        "t").isPanic = false :=
  c9_no_out_of_range
    ["id,product_name,drug_generic,company", "1,a,b,c", "2,d"]
    [("id", 0), ("product_name", 1), ("drug_generic", 2), ("company", 3)]
    "t" (by decide)

end ESpec

namespace ESpec

theorem bulkLoop_spec (oracle : Nat → Importer.BatchOutcome) (n : Nat)
    (hno : ∀ k, (oracle k).isTransport = false) :
    ∀ (rem : List Models.Product) (i k : Nat) (cur : List Models.Product),
      i + rem.length = n → cur.length = i % 100 → rem ≠ [] →
      (Importer.bulkLoop oracle n rem i k cur).1.flatten = cur ++ rem
      ∧ (∀ b ∈ (Importer.bulkLoop oracle n rem i k cur).1,
          0 < b.length ∧ b.length ≤ 100)
      ∧ (∀ b ∈ (Importer.bulkLoop oracle n rem i k cur).1.dropLast,
          b.length = 100) := by
  intro rem
  induction rem with
  | nil => intro i k cur _ _ hne; exact absurd rfl hne
  | cons p rest ih =>
    intro i k cur hn hcur _
    simp only [List.length_cons] at hn
    by_cases hc : (i + 1) % 100 = 0 ∨ i = n - 1
    · have hred : (Importer.bulkLoop oracle n (p :: rest) i k cur).1 =
          (cur ++ [p]) :: (Importer.bulkLoop oracle n rest (i + 1) (k + 1) []).1 := by
        have hk := hno k
        simp only [Importer.bulkLoop]
        rw [if_pos hc]
        cases ho : oracle k <;>
          simp [ho, Importer.BatchOutcome.isTransport] at hk ⊢
      rw [hred]
      cases rest with
      | nil =>
        simp only [Importer.bulkLoop]
        have hm : i % 100 < 100 := Nat.mod_lt i (by decide)
        refine ⟨by simp, fun b hb => ?_, fun b hb => ?_⟩
        · simp only [List.mem_singleton] at hb
          subst hb
          simp only [List.length_append, List.length_singleton, hcur]
          omega
        · simp at hb
      | cons q rest2 =>
        have hi : i ≠ n - 1 := by simp only [List.length_cons] at hn; omega
        have h100 : (i + 1) % 100 = 0 := hc.resolve_right hi
        have hA : (i + 1) + (q :: rest2).length = n := by omega
        have hB : ([] : List Models.Product).length = (i + 1) % 100 := by
          simp [h100]
        have hih := ih (i + 1) (k + 1) [] hA hB (by simp)
        obtain ⟨hj, hs, hd⟩ := hih
        have hlen : (cur ++ [p]).length = 100 := by
          simp only [List.length_append, List.length_singleton, hcur]
          omega
        have hbne : (Importer.bulkLoop oracle n (q :: rest2) (i + 1) (k + 1) []).1 ≠ [] := by
          intro hnil
          rw [hnil] at hj
          simp at hj
        refine ⟨?_, fun b hb => ?_, fun b hb => ?_⟩
        · simp only [List.flatten_cons]
          rw [hj]
          simp
        · simp only [List.mem_cons] at hb
          rcases hb with hb | hb
          · subst hb; omega
          · exact hs b hb
        · cases hbs : (Importer.bulkLoop oracle n (q :: rest2) (i + 1) (k + 1) []).1 with
          | nil => exact absurd hbs hbne
          | cons b0 bs0 =>
            rw [hbs] at hb
            simp only [List.dropLast_cons₂, List.mem_cons] at hb
            rcases hb with hb | hb
            · subst hb; exact hlen
            · have hmem := hd b
              rw [hbs] at hmem
              exact hmem (by simp [List.dropLast_cons₂, hb])
    · have hred : Importer.bulkLoop oracle n (p :: rest) i k cur =
          Importer.bulkLoop oracle n rest (i + 1) k (cur ++ [p]) := by
        simp only [Importer.bulkLoop]
        rw [if_neg hc]
      rw [hred]
      push_neg at hc
      obtain ⟨h100, hi⟩ := hc
      have hrest : rest ≠ [] := by
        intro hnil
        subst hnil
        simp only [List.length_nil] at hn
        omega
      have hA : (i + 1) + rest.length = n := by omega
      have hB : (cur ++ [p]).length = (i + 1) % 100 := by
        simp only [List.length_append, List.length_singleton, hcur]
        omega
      have hih := ih (i + 1) k (cur ++ [p]) hA hB hrest
      obtain ⟨hj, hs, hd⟩ := hih
      refine ⟨?_, hs, hd⟩
      rw [hj]
      simp

theorem bulkLoop_length_oracle_free (o o2 : Nat → Importer.BatchOutcome) (n : Nat) :
    ∀ (rem : List Models.Product) (i k k2 : Nat) (cur cur2 : List Models.Product),
      (Importer.bulkLoop o n rem i k cur).1.length =
        (Importer.bulkLoop o2 n rem i k2 cur2).1.length := by
  intro rem
  induction rem with
  | nil => intro i k k2 cur cur2; rfl
  | cons p rest ih =>
    intro i k k2 cur cur2
    simp only [Importer.bulkLoop]
    by_cases hc : (i + 1) % 100 = 0 ∨ i = n - 1
    · rw [if_pos hc, if_pos hc]
      simp only [List.length_cons]
      rw [ih (i + 1) (k + 1) (k2 + 1) _ _]
    · rw [if_neg hc, if_neg hc]
      exact ih (i + 1) k k2 (cur ++ [p]) (cur2 ++ [p])

/-- C3 (claim as stated is refuted here): with 101 products and a transport
error on the first request, the `continue` skips `bulkBody.Reset()`, so the
failed batch's 100 documents are re-carried and the second network round
trip holds 101 documents — more than the fixed batch size of 100 — while an
all-success run of the same input attempts batches of 100 and 1: round
trips are not fixed at 100 documents and the batch sequence depends on the
failures. -/
theorem c3_oversized_batch_counterexample :
    ((Importer.importProductsBulk (List.replicate 101 Models.defaultProduct)
        (fun k => if k = 0 then .transportError "boom" else .success)).1.map
      List.length) = [100, 101]
    ∧ ((Importer.importProductsBulk (List.replicate 101 Models.defaultProduct)
        (fun _ => .success)).1.map List.length) = [100, 1]
    ∧ ¬ (101 ≤ 100) :=
  ⟨rfl, rfl, by decide⟩

/-- C3 (amended): `importProductsBulk` issues a bulk request at every fixed
batch boundary of 100 documents and at the end of the input, returns `nil`
unconditionally, and no batch failure aborts the run: the number of
attempted round trips is the same under every pattern of per-request
outcomes. When no request fails at the transport level, every round trip
carries at most 100 documents (exactly 100 except possibly the last) and
the attempted batches concatenate back to the input; a transport error,
whose `continue` skips the body reset, re-carries the failed documents into
the next round trip, which can then exceed 100 documents. Every batch
failure (transport error or engine error response) is logged and
the import continues with the next batch. -/
theorem c3_bulk_import (products : List Models.Product)
    (oracle oracle2 : Nat → Importer.BatchOutcome) :
    (Importer.importProductsBulk products oracle).2.2 = Except.ok ()
    ∧ (Importer.importProductsBulk products oracle).1.length =
        (Importer.importProductsBulk products oracle2).1.length
    ∧ ((∀ k, (oracle k).isTransport = false) →
        (Importer.importProductsBulk products oracle).1.flatten = products
        ∧ (∀ b ∈ (Importer.importProductsBulk products oracle).1,
            0 < b.length ∧ b.length ≤ 100)
        ∧ (∀ b ∈ (Importer.importProductsBulk products oracle).1.dropLast,
            b.length = 100)) := by
  by_cases hp : products.isEmpty
  · have h0 : products = [] := List.isEmpty_iff.mp hp
    subst h0
    refine ⟨rfl, rfl, fun _ => ⟨rfl, ?_, ?_⟩⟩ <;>
      · intro b hb
        simp [Importer.importProductsBulk] at hb
  · have hne : products ≠ [] := by
      intro hnil; subst hnil; simp at hp
    have e1 : Importer.importProductsBulk products oracle =
        ((Importer.bulkLoop oracle products.length products 0 0 []).1,
         (Importer.bulkLoop oracle products.length products 0 0 []).2,
         Except.ok ()) := by
      simp [Importer.importProductsBulk, hp]
    have e2 : Importer.importProductsBulk products oracle2 =
        ((Importer.bulkLoop oracle2 products.length products 0 0 []).1,
         (Importer.bulkLoop oracle2 products.length products 0 0 []).2,
         Except.ok ()) := by
      simp [Importer.importProductsBulk, hp]
    rw [e1, e2]
    refine ⟨rfl, ?_, fun hno => ?_⟩
    · exact bulkLoop_length_oracle_free oracle oracle2 products.length
        products 0 0 0 [] []
    · obtain ⟨hj, hs, hd⟩ := bulkLoop_spec oracle products.length hno
        products 0 0 [] (by simp) (by simp) hne
      exact ⟨by simpa using hj, hs, hd⟩

/-- C3 witness: the amended theorem at a concrete two-product import: under
an all-success oracle (no transport failure) the single attempted batch
flattens back to the input, and the number of round trips equals that of an
all-engine-error run of the same input. -/
theorem c3_bulk_import_witness :
    (Importer.importProductsBulk
        [Models.defaultProduct, { Models.defaultProduct with ID := 2 }]
        (fun _ => Importer.BatchOutcome.success)).1.flatten =
      [Models.defaultProduct, { Models.defaultProduct with ID := 2 }]
    ∧ (Importer.importProductsBulk
        [Models.defaultProduct, { Models.defaultProduct with ID := 2 }]
        (fun _ => Importer.BatchOutcome.success)).1.length =
      (Importer.importProductsBulk
        [Models.defaultProduct, { Models.defaultProduct with ID := 2 }]
        (fun _ => Importer.BatchOutcome.engineError "e")).1.length := by
  have h := c3_bulk_import
    [Models.defaultProduct, { Models.defaultProduct with ID := 2 }]
    (fun _ => Importer.BatchOutcome.success)
    (fun _ => Importer.BatchOutcome.engineError "e")
  exact ⟨(h.2.2 (fun _ => rfl)).1, h.2.1⟩

end ESpec

namespace ESpec.Repo

open ESpec

/-- One field step of `json.Unmarshal` into `models.Product`
(`extractProductsFromResponse` unmarshals each hit's `_source`): a known
JSON key must carry a value of the field's type (`none` models the
unmarshal error that makes the caller skip the hit), JSON `null` leaves the
field untouched, unknown keys are ignored. The timestamp fields accept any
JSON string (the RFC3339 format check of `time.Time` is abstracted away;
no claim depends on it). -/
def setField (p : Models.Product) (key : String) (v : JVal) : Option Models.Product :=
  if key = "id" then
    match v with
    | .jnull => some p
    | .jnum n => if 0 ≤ n ∧ n < 2 ^ 64 then some { p with ID := n.toNat } else none
    | _ => none
  else if key = "product_name" then
    match v with
    | .jnull => some p
    | .jstr s => some { p with ProductName := s }
    | _ => none
  else if key = "drug_generic" then
    match v with
    | .jnull => some p
    | .jstr s => some { p with DrugGeneric := s }
    | _ => none
  else if key = "company" then
    match v with
    | .jnull => some p
    | .jstr s => some { p with Company := s }
    | _ => none
  else if key = "score" then
    match v with
    | .jnull => some p
    | .jnum n => some { p with Score := n }
    | _ => none
  else if key = "created_at" then
    match v with
    | .jnull => some p
    | .jstr s => some { p with CreatedAt := s }
    | _ => none
  else if key = "updated_at" then
    match v with
    | .jnull => some p
    | .jstr s => some { p with UpdatedAt := s }
    | _ => none
  else some p

/-- Fold of `setField` over an object's fields in document order. -/
def unmarshalFields (p : Models.Product) : List (String × JVal) → Option Models.Product
  | [] => some p
  | (k, v) :: rest =>
    match setField p k v with
    | some p2 => unmarshalFields p2 rest
    | none => none

/-- `json.Marshal` of the hit's `_source` followed by `json.Unmarshal` into
a zero `models.Product`: an absent or null source yields the zero record,
an object is decoded field-wise, anything else fails (the hit is then
skipped). -/
def unmarshalProduct : Option JVal → Option Models.Product
  | none => some Models.defaultProduct
  | some .jnull => some Models.defaultProduct
  | some (.jobj fields) => unmarshalFields Models.defaultProduct fields
  | some _ => none

/-- The body of the hit loop of `extractProductsFromResponse`
(`internal/app/application.go`, lines 376-410) for one hit map: decode the
`_source` into a product (skip the hit on failure); then, if `_id` is a
string that `strconv.Atoi` accepts, overwrite `ID` with the `uint64`
conversion of the parsed signed value (otherwise leave the decoded `ID`);
then, if `_score` is a number, overwrite `Score`. -/
def extractHit (hitMap : List (String × JVal)) : Option Models.Product :=
  let docId := List.lookup "_id" hitMap
  let score := List.lookup "_score" hitMap
  let source := List.lookup "_source" hitMap
  match unmarshalProduct source with
  | none => none
  | some prod0 =>
    let prod1 :=
      match docId with
      | some (.jstr idStr) =>
        match parseGoInt idStr with
        | some idInt => { prod0 with ID := goUInt64 idInt }
        | none => prod0
      | _ => prod0
    let prod2 :=
      match score with
      | some (.jnum f) => { prod1 with Score := f }
      | _ => prod1
    some prod2

/-- The hit loop: non-object hits are skipped, hits whose source fails to
decode are skipped, every other hit contributes a product in order. -/
def extractLoop : List JVal → List Models.Product
  | [] => []
  | hit :: rest =>
    match hit with
    | .jobj hitMap =>
      match extractHit hitMap with
      | some p => p :: extractLoop rest
      | none => extractLoop rest
    | _ => extractLoop rest

/-- `extractProductsFromResponse` (`application.go`, lines 363-413) on the
decoded top-level response object. The unguarded type assertion
`response[hits].(map[string]interface{})` panics when the `hits` key is
absent or not an object; the inner `hits` key is read with the comma-ok
form, so a missing or non-array value yields the empty product list. -/
def extractProductsFromResponse (response : List (String × JVal)) :
    GoResult (List Models.Product) :=
  match List.lookup "hits" response with
  | some (.jobj hitsMap) =>
    match List.lookup "hits" hitsMap with
    | none => .ok []
    | some v =>
      match v with
      | .jarr hitsArray => .ok (extractLoop hitsArray)
      | _ => .ok []
  | _ => .panicked "interface conversion: interface \x7b\x7d is not map"

/-- Rendering of an `interface{}` value under `fmt`'s `%s` verb, as used in
the error message of `FindProducts`' engine-error branch (a missing map key
is a nil interface). The exact text matters to no claim. -/
def jvalFmtS : Option JVal → String
  | none => "%!s(<nil>)"
  | some .jnull => "%!s(<nil>)"
  | some (.jstr s) => s
  | some (.jnum n) => toString n
  | some (.jbool b) => toString b
  | some (.jarr _) => "[...]"
  | some (.jobj _) => "map[...]"

/-- The engine-error branch of `FindProducts` (`application.go`, lines
213-226): the error response body has been JSON-decoded into the object
`e`; the code formats `[status] type: reason` from
`e[error].(map[string]interface{})[type]` and `...[reason]` and returns it
as an error to the caller. `.ok msg` means `FindProducts` returns the
error `msg` (never a success result); the unguarded type assertion on
`e[error]` panics when that field is absent or not an object. -/
def findProductsOnEngineError (status : String) (e : List (String × JVal)) :
    GoResult String :=
  match List.lookup "error" e with
  | some (.jobj errObj) =>
    .ok ("[" ++ status ++ "] " ++ jvalFmtS (List.lookup "type" errObj) ++ ": "
      ++ jvalFmtS (List.lookup "reason" errObj))
  | _ => .panicked "interface conversion: interface \x7b\x7d is not map[string]interface \x7b\x7d"

end ESpec.Repo

namespace ESpec

/-- C5 (amended): for a hit whose `_source` decodes, the engine identifier
is re-parsed by `strconv.Atoi` as a SIGNED 64-bit integer and converted to
`uint64` (negative identifiers wrap modulo 2^64); when that parse fails
(non-numeric strings, or magnitudes at or above 2^63) the product keeps the
identifier decoded from `_source` (zero only when the source carries none)
— and in every case the hit is still included, not rejected or skipped.
The hit's numeric `_score` is copied into the product. -/
theorem c5_extract_id_amended (s : String) (sc : Int) (src : JVal) (p0 : Models.Product)
    (h : Repo.unmarshalProduct (some src) = some p0) :
    Repo.extractProductsFromResponse
      [("hits", JVal.jobj [("hits", JVal.jarr
        [JVal.jobj [("_id", JVal.jstr s), ("_score", JVal.jnum sc), ("_source", src)]])])] =
    .ok [{ p0 with
            ID := match parseGoInt s with
                  | some i => goUInt64 i
                  | none => p0.ID,
            Score := sc }] := by
  simp only [Repo.extractProductsFromResponse, Repo.extractLoop, Repo.extractHit,
    List.lookup, h]
  cases hpi : parseGoInt s <;>
    simp [Repo.extractLoop, Repo.extractHit, List.lookup, h, hpi]

end ESpec

namespace ESpec

/-- C5 (claim as stated is refuted here): a hit whose identifier string
`"abc"` is non-numeric does NOT keep the zero identifier: the product keeps
the id decoded from its `_source` (here `7`). The hit is included, but with
a nonzero identifier, contradicting the claim's zero-identifier clause. -/
theorem c5_extract_id_counterexample :
    Repo.extractProductsFromResponse
      [("hits", JVal.jobj [("hits", JVal.jarr
        [JVal.jobj [("_id", JVal.jstr "abc"),
                    ("_source", JVal.jobj [("id", JVal.jnum 7)])]])])] =
    .ok [(⟨7, "", "", "", 0, "", ""⟩ : Models.Product)]
    ∧ (7 : Nat) ≠ 0 :=
  ⟨rfl, by decide⟩

/-- C5 witness: the amended theorem at `_id = "-5"` (numeric but negative):
`Atoi` succeeds, and the `uint64` conversion wraps to `2^64 - 5`; the
`_score` is copied. -/
theorem c5_extract_id_amended_witness :
    Repo.extractProductsFromResponse
      [("hits", JVal.jobj [("hits", JVal.jarr
        [JVal.jobj [("_id", JVal.jstr "-5"), ("_score", JVal.jnum 3),
                    ("_source", JVal.jnull)]])])] =
    .ok [(⟨18446744073709551611, "", "", "", 3, "", ""⟩ : Models.Product)] :=
  c5_extract_id_amended "-5" 3 JVal.jnull Models.defaultProduct rfl

/-- C10 (claim as stated is refuted here): the engine-error branch of
`FindProducts` panics — the unguarded type assertion
`e[error].(map[string]interface{})` fails — on the JSON-decodable error
bodies `{status: 500}` (no `error` field) and `{error: "oops"}` (`error` a
plain string), instead of returning an error without panicking. -/
theorem c10_error_access_counterexample :
    Repo.findProductsOnEngineError "500 Internal Server Error"
      [("status", JVal.jnum 500)] =
      .panicked "interface conversion: interface \x7b\x7d is not map[string]interface \x7b\x7d"
    ∧ Repo.findProductsOnEngineError "500 Internal Server Error"
      [("error", JVal.jstr "oops")] =
      .panicked "interface conversion: interface \x7b\x7d is not map[string]interface \x7b\x7d" :=
  ⟨rfl, rfl⟩

/-- C10 (amended): when the engine returns an error status, `FindProducts`
returns an error (never a success result) without panicking for every
decoded body whose `error` field is a JSON object: the accesses to
`error.type` and `error.reason` then succeed for every shape of that object
(absent keys render as nil). When the `error` field is absent or not an
object, the branch panics on the type assertion. -/
theorem c10_error_branch (status : String) (e flds : List (String × JVal))
    (h : List.lookup "error" e = some (JVal.jobj flds)) :
    Repo.findProductsOnEngineError status e =
      .ok ("[" ++ status ++ "] " ++ Repo.jvalFmtS (List.lookup "type" flds)
        ++ ": " ++ Repo.jvalFmtS (List.lookup "reason" flds)) := by
  simp [Repo.findProductsOnEngineError, h]

/-- C10 witness: a well-formed engine error body produces the formatted
error return. -/
theorem c10_error_branch_witness :
    Repo.findProductsOnEngineError "500"
      [("error", JVal.jobj [("type", JVal.jstr "x"), ("reason", JVal.jstr "y")])] =
      .ok "[500] x: y" :=
  c10_error_branch "500"
    [("error", JVal.jobj [("type", JVal.jstr "x"), ("reason", JVal.jstr "y")])]
    [("type", JVal.jstr "x"), ("reason", JVal.jstr "y")] rfl

end ESpec
